import Mathlib

/-!
Verification of the MultiAgent ReAct controller
(`crates/controller/src/react.rs`, `crates/core/src/types.rs`).

Rust strings are embedded as `List Char` (`Str`); `u64` counters as `Nat`
(Rust's checked arithmetic panics on overflow in debug builds, so all
reachable arithmetic agrees with `Nat`); fallible capability calls as
`Except Error`.  Capability providers (reasoning backend, tool registry,
session store, compressor, delegator) are trait objects in the source and
are embedded as optional function fields of an `Env` record.
-/

namespace MultiAgent

/-- Rust string slices embedded as character lists. -/
abbrev Str := List Char

/-- The ASCII fragment of Rust `char::is_whitespace` (all inputs reaching
`trim` in this code base are ASCII). -/
def isRustWhitespace (c : Char) : Bool :=
  c == ' ' || c == '\t' || c == '\n' || c == '\r'

/-- Rust `str::trim`: drop leading and trailing whitespace. -/
def rustTrim (s : Str) : Str :=
  ((s.dropWhile isRustWhitespace).reverse.dropWhile isRustWhitespace).reverse

/-- Rust `str::strip_prefix`: the remainder after `pat` when `pat` leads `s`. -/
def stripPrefixStr (pat s : Str) : Option Str :=
  if pat.isPrefixOf s then some (s.drop pat.length) else none

/-- Remainder of `s` after the first occurrence of `pat`: the common core of
Rust `str::find` + slicing past the pattern, `str::split_once` (second
component), and `str::contains` (`isSome`). -/
def afterFirst (pat : Str) : Str → Option Str
  | [] => if pat.isPrefixOf ([] : Str) then some [] else none
  | c :: rest =>
    if pat.isPrefixOf (c :: rest) then some ((c :: rest).drop pat.length)
    else afterFirst pat rest

/-- Rust `str::contains` for the patterns used by the decoder. -/
def containsStr (pat s : Str) : Bool :=
  (afterFirst pat s).isSome

/-- Rust `str::lines().next()`: `none` on the empty string; otherwise the text
up to the first `'\n'`, with a trailing `'\r'` removed only when a `'\n'`
terminator was actually present (exactly Rust's `Lines` behaviour). -/
def firstLineOpt (s : Str) : Option Str :=
  match s with
  | [] => none
  | _ =>
    let l := s.takeWhile (fun c => !(c == '\n'))
    if l.length < s.length then
      some (if l.getLast? = some '\r' then l.dropLast else l)
    else
      some l

/-- Structured JSON-ish argument values (`serde_json::Value`).  Numbers are
abstracted to `Int`: the controller never inspects argument payloads, it only
threads them through to the tool backend. -/
inductive Json where
  | null : Json
  | bool (b : Bool) : Json
  | num (n : Int) : Json
  | str (s : Str) : Json
  | arr (elems : List Json) : Json
  | obj (fields : List (Str × Json)) : Json

/-- The `serde_json::json!({})` default object. -/
def Json.emptyObj : Json := .obj []

/-- Decoded action variants (`ReActAction` in `react.rs`). -/
inductive ReActAction where
  | ToolCall (name : Str) (args : Json) : ReActAction
  | FinalAnswer (text : Str) : ReActAction
  | Think (text : Str) : ReActAction
  | Delegate (objective : Str) (context : Str) : ReActAction

def finalAnswerMarker : Str := "FINAL ANSWER:".data
def actionMarker : Str := "ACTION:".data
def argsMarker : Str := "ARGS:".data
def thoughtMarker : Str := "THOUGHT:".data
def delegateMarker : Str := "DELEGATE:".data
def contextMarker : Str := "CONTEXT:".data

/-- The `"{}"` fallback line fed to the JSON parser when the text after
`ARGS:` is empty. -/
def defaultArgsLine : Str := ['\x7b', '\x7d']

/-- `ReActController::parse_action`, parametrised by the external JSON parser
(`serde_json::from_str`, an external crate, hence a parameter `pj`). -/
def parse_action (pj : Str → Option Json) (response : Str) : ReActAction :=
  let response_trimmed := rustTrim response
  match stripPrefixStr finalAnswerMarker response_trimmed with
  | some answer => .FinalAnswer (rustTrim answer)
  | none =>
    match afterFirst actionMarker response_trimmed with
    | some rest =>
      let action_line := rustTrim ((firstLineOpt rest).getD [])
      let args :=
        match afterFirst argsMarker rest with
        | some args_str =>
          (pj (rustTrim ((firstLineOpt args_str).getD defaultArgsLine))).getD Json.emptyObj
        | none => Json.emptyObj
      .ToolCall action_line args
    | none =>
      match stripPrefixStr thoughtMarker response_trimmed with
      | some thought => .Think (rustTrim thought)
      | none =>
        match afterFirst delegateMarker response_trimmed with
        | some rest =>
          let objective := rustTrim ((firstLineOpt rest).getD [])
          let context :=
            match afterFirst contextMarker rest with
            | some after => rustTrim ((firstLineOpt after).getD [])
            | none => []
          .Delegate objective context
        | none => .Think response_trimmed

/-- Session status (`SessionStatus` in `types.rs`). -/
inductive SessionStatus where
  | Running
  | Paused
  | Completed
  | Failed
deriving DecidableEq, Repr

/-- Tool-call record attached to a history entry (`ToolCallInfo`). -/
structure ToolCallInfo where
  name : Str
  arguments : Json
  result : Option Str

/-- One conversation history entry (`HistoryEntry`). -/
structure HistoryEntry where
  role : Str
  content : Str
  tool_call : Option ToolCallInfo
  timestamp : Int

/-- Task progress record (`TaskState`). -/
structure TaskState where
  iteration : Nat
  goal : Str
  observations : List Str
  pending_actions : List Json

/-- Token accounting (`TokenUsage`); `u64` counters embedded as `Nat`. -/
structure TokenUsage where
  prompt_tokens : Nat
  completion_tokens : Nat
  total_tokens : Nat
  budget_limit : Nat
deriving DecidableEq, Repr

/-- `TokenUsage::with_budget`. -/
def TokenUsage.with_budget (limit : Nat) : TokenUsage :=
  { prompt_tokens := 0, completion_tokens := 0, total_tokens := 0, budget_limit := limit }

/-- `TokenUsage::add`. -/
def TokenUsage.add (u : TokenUsage) (prompt completion : Nat) : TokenUsage :=
  { u with
      prompt_tokens := u.prompt_tokens + prompt
      completion_tokens := u.completion_tokens + completion
      total_tokens := u.total_tokens + (prompt + completion) }

/-- `TokenUsage::is_exceeded`. -/
def TokenUsage.is_exceeded (u : TokenUsage) : Bool :=
  u.total_tokens ≥ u.budget_limit

/-- `TokenUsage::remaining` (`saturating_sub`, which is exactly `Nat` subtraction). -/
def TokenUsage.remaining (u : TokenUsage) : Nat :=
  u.budget_limit - u.total_tokens

/-- Session state (`Session`). -/
structure Session where
  id : Str
  status : SessionStatus
  history : List HistoryEntry
  task_state : Option TaskState
  token_usage : TokenUsage
  created_at : Int
  updated_at : Int

/-- Agent results (`AgentResult` in `types.rs`); `RefId` is its inner string. -/
inductive AgentResult where
  | Text (text : Str) : AgentResult
  | File (ref_id : Str) (filename : Str) (mime_type : Str) : AgentResult
  | Data (value : Json) : AgentResult
  | UiComponent (component_type : Str) (props : Json) : AgentResult
  | Error (message : Str) (code : Str) : AgentResult

/-- Tool execution output (`ToolOutput` in `types.rs`). -/
structure ToolOutput where
  success : Bool
  content : Str
  data : Option Json
  created_refs : List Str

/-- Modelled from the spec: the error taxonomy of §7 (the `Error` enum lives in
the core crate's error module, which is not part of the provided sources).
`BudgetExceeded {used, limit}` and `MaxIterationsExceeded(n)` are the variants
constructed in `react.rs`; `Controller` is `Error::controller(msg)`;
`Capability` stands for any propagated provider failure. -/
inductive Error where
  | BudgetExceeded (used : Nat) (limit : Nat) : Error
  | MaxIterationsExceeded (n : Nat) : Error
  | Controller (msg : Str) : Error
  | Capability (msg : Str) : Error

/-- Modelled from the spec: the rendered error description (`e.to_string()`,
"observation embeds the error description" in §4.4/§6); the `Display`
implementation lives in the missing error module, so the description is
embedded as the carried message (with a fixed rendering for the two
structured variants). -/
def Error.toMessage : Error → Str
  | .BudgetExceeded _ _ => "budget exceeded".data
  | .MaxIterationsExceeded _ => "max iterations exceeded".data
  | .Controller msg => msg
  | .Capability msg => msg

/-- Chat message sent to the reasoning backend (`ChatMessage` in the core
traits module; `react.rs` always constructs it with `tool_calls: None`). -/
structure ChatMessage where
  role : Str
  content : Str
  tool_calls : Option Json

/-- Reasoning-backend usage report (`LlmResponse.usage`). -/
structure LlmUsage where
  prompt_tokens : Nat
  completion_tokens : Nat

/-- Reasoning-backend reply (`LlmResponse`). -/
structure LlmResponse where
  content : Str
  usage : LlmUsage

/-- Modelled from the spec: compression outcome (§6
`compress(messages, config) → {messages, foldedCount, estimatedTokens}`);
the `ContextCompressor` trait lives in `context.rs`, which is not part of the
provided sources. -/
structure CompressionResult where
  messages : List ChatMessage
  messages_compressed : Nat
  estimated_tokens : Nat

/-- Modelled from the spec: a bound `ContextCompressor` trait object (§6).
`ReActController` passes its fixed `compression_config` to every call, so the
configuration argument is pre-applied in these two fields.
`needs_compression` must not suspend and returns a plain `Bool`; `compress`
may fail, fatally for the iteration. -/
structure Compressor where
  needs_compression : List ChatMessage → Bool
  compress : List ChatMessage → Except Error CompressionResult

/-- Modelled from the spec: delegation request (§6
`delegate(request{objective, context})`); built in `react.rs` via
`DelegationRequest::new(&objective).with_context(&context)` whose definition
(`delegation.rs`) is not part of the provided sources. -/
structure DelegationRequest where
  objective : Str
  context : Str

/-- Modelled from the spec: delegation outcome (§6
`delegate(request) → {success, result, error}`), matching the field accesses
`result.success`, `result.result`, `result.error` in `react.rs`. -/
structure DelegationResult where
  success : Bool
  result : Str
  error : Option Str

/-- The capability bindings of one `ReActController` plus the resolved ambient
effects: each `Option` field is one of the controller's optional trait-object
fields; `parse_json` is `serde_json::from_str` (external crate); `now` is
`chrono_timestamp()`; `fresh_id` is `Uuid::new_v4()`. -/
structure Env where
  llm : Option (List ChatMessage → Except Error LlmResponse)
  tools : Option (Str → Json → Except Error ToolOutput)
  session_store : Option (Session → Except Error Unit)
  compressor : Option Compressor
  delegator : Option (DelegationRequest → Except Error DelegationResult)
  parse_json : Str → Option Json
  now : Int
  fresh_id : Str

/-- `ReActConfig` (the `temperature : f32` field is never read by `react.rs`
and is omitted: floating point with no observable effect). -/
structure ReActConfig where
  max_iterations : Nat
  default_budget : Nat
  persist_state : Bool
deriving DecidableEq, Repr

/-- `ReActConfig::default()`. -/
def ReActConfig.default : ReActConfig :=
  { max_iterations := 10, default_budget := 50000, persist_state := true }

/-- `ReActController::get_tools_description`: a fixed placeholder. -/
def toolsDescriptionPlaceholder : Str :=
  "Tools will be loaded when execution starts.".data

/-- `ReActController::build_system_prompt`: the fixed prompt template around
the goal and the tools-description placeholder. -/
def build_system_prompt (goal : Str) : Str :=
  ("You are an AI assistant that uses the ReAct (Reasoning + Acting) pattern.\n\nGOAL: ".data)
  ++ goal
  ++ ("\n\nAVAILABLE TOOLS:\n".data)
  ++ toolsDescriptionPlaceholder
  ++ ("\n\nINSTRUCTIONS:\n1. Think step by step about what needs to be done\n2. Use tools when needed by responding with ACTION\n3. After receiving tool results, continue reasoning\n4. When done, provide your FINAL ANSWER\n\nRESPONSE FORMAT:\nUse exactly one of these formats in each response:\n\nFor thinking/reasoning:\nTHOUGHT: <your reasoning here>\n\nFor tool calls:\nACTION: <tool_name>\nARGS: <json arguments>\n\nFor final answer (when task is complete):\nFINAL ANSWER: <your complete answer>\n\nAlways think before acting. Be concise and focused on the goal.".data)

/-- `ReActController::create_session`. -/
def create_session (env : Env) (cfg : ReActConfig) (goal : Str) : Session :=
  { id := env.fresh_id
    status := .Running
    history := [{ role := "system".data, content := build_system_prompt goal,
                  tool_call := none, timestamp := env.now }]
    task_state := some { iteration := 0, goal := goal, observations := [], pending_actions := [] }
    token_usage := .with_budget cfg.default_budget
    created_at := env.now
    updated_at := env.now }

/-- `ReActController::build_messages`: the transient message view over the
stored history. -/
def build_messages (s : Session) : List ChatMessage :=
  s.history.map fun e => { role := e.role, content := e.content, tool_calls := none }

/-- The compression step at the top of `execute_iteration_with_llm`: when a
compressor is bound and reports that compression is needed, replace the
transient view by the compressed one; a compression failure propagates
(`?`). -/
def compress_view (env : Env) (messages : List ChatMessage) : Except Error (List ChatMessage) :=
  match env.compressor with
  | some comp =>
    if comp.needs_compression messages then
      (comp.compress messages).map fun r => r.messages
    else .ok messages
  | none => .ok messages

/-- Append one entry to the session history (`session.history.push(...)`). -/
def push_history (s : Session) (e : HistoryEntry) : Session :=
  { s with history := s.history ++ [e] }

/-- Append an observation to the task-state observation list
(`task_state.observations.push(...)`, a no-op when `task_state` is `None`). -/
def push_observation (s : Session) (obs : Str) : Session :=
  match s.task_state with
  | some ts => { s with task_state := some { ts with observations := ts.observations ++ [obs] } }
  | none => s

/-- The `let observation = ...` computation of the `ToolCall` branch:
tool success, tool-level failure, backend error and unbound backend each map
to their formatted observation string. -/
def toolObservation (env : Env) (name : Str) (args : Json) : Str :=
  match env.tools with
  | some exec =>
    match exec name args with
    | .ok output =>
      if output.success then
        ("Tool '".data) ++ name ++ ("' succeeded:\n".data) ++ output.content
      else
        ("Tool '".data) ++ name ++ ("' failed:\n".data) ++ output.content
    | .error e => ("Tool '".data) ++ name ++ ("' error: ".data) ++ e.toMessage
  | none => ("Tool '".data) ++ name ++ ("' not available (no tools configured)".data)

/-- The `let observation = ...` computation of the `Delegate` branch:
sub-task success, sub-task failure, capability error and unbound delegator
each map to their formatted observation string. -/
def delegateObservation (env : Env) (objective context : Str) : Str :=
  match env.delegator with
  | some dg =>
    match dg { objective := objective, context := context } with
    | .ok r =>
      if r.success then
        ("Subagent completed successfully:\n".data) ++ r.result
      else
        ("Subagent failed: ".data) ++ (r.error.getD [])
    | .error e => ("Delegation error: ".data) ++ e.toMessage
  | none => ("Delegation not available (no delegator configured). Objective: ".data) ++ objective

/-- The fixed nudge entry appended when the decoded action is `Think`. -/
def nudge_entry (ts : Int) : HistoryEntry :=
  { role := "user".data
    content := "Please take an action using a tool, or provide your FINAL ANSWER if the task is complete.".data
    tool_call := none
    timestamp := ts }

/-- The `match action` block of `execute_iteration_with_llm`: enact one
decoded action.  Every branch returns `Ok` in the source, so no error
component appears here; `none` means "continue the loop". -/
def apply_action (env : Env) (s : Session) : ReActAction → Session × Option AgentResult
  | .FinalAnswer answer => (s, some (.Text answer))
  | .ToolCall name args =>
    let observation := toolObservation env name args
    let s := push_history s
      { role := "user".data
        content := ("OBSERVATION: ".data) ++ observation
        tool_call := some { name := name, arguments := args, result := some observation }
        timestamp := env.now }
    (push_observation s observation, none)
  | .Think _ =>
    (push_history s (nudge_entry env.now), none)
  | .Delegate objective context =>
    let observation := delegateObservation env objective context
    let s := push_history s
      { role := "user".data
        content := ("DELEGATION RESULT: ".data) ++ observation
        tool_call := none
        timestamp := env.now }
    (push_observation s observation, none)

/-- `session.token_usage.add(...)` on the usage returned by the backend. -/
def add_usage (s : Session) (u : LlmUsage) : Session :=
  { s with token_usage := s.token_usage.add u.prompt_tokens u.completion_tokens }

/-- The assistant-role history entry carrying the raw backend reply. -/
def assistant_entry (content : Str) (ts : Int) : HistoryEntry :=
  { role := "assistant".data, content := content, tool_call := none, timestamp := ts }

/-- `ReActController::execute_iteration_with_llm`.  The returned pair carries
the session state after the call (the Rust function mutates through
`&mut Session`) and the step outcome; the `iteration` argument of the source
is used only for logging and is omitted. -/
def execute_iteration_with_llm (env : Env) (s : Session) :
    Session × Except Error (Option AgentResult) :=
  match env.llm with
  | none => (s, .error (.Controller ("LLM client not configured".data)))
  | some chat =>
    match compress_view env (build_messages s) with
    | .error e => (s, .error e)
    | .ok messages =>
      match chat messages with
      | .error e => (s, .error e)
      | .ok response =>
        let s := add_usage s response.usage
        let s := push_history s (assistant_entry response.content env.now)
        let so := apply_action env s (parse_action env.parse_json response.content)
        (so.1, .ok so.2)

/-- The deterministic fallback text of the mock iteration. -/
def mock_result_text (s : Session) : Str :=
  ("Mock ReAct execution. Goal: ".data)
  ++ (match s.task_state with
      | some t => t.goal
      | none => "unknown".data)
  ++ (". Configure LLM client for real execution.".data)

/-- `ReActController::execute_iteration`: the real step when a reasoning
backend is bound, the immediately-terminal mock step otherwise. -/
def execute_iteration (env : Env) (s : Session) :
    Session × Except Error (Option AgentResult) :=
  match env.llm with
  | some _ => execute_iteration_with_llm env s
  | none => (s, .ok (some (.Text (mock_result_text s))))

/-- The `task_state.iteration = iteration` assignment at the top of each loop
pass. -/
def set_task_iteration (s : Session) (i : Nat) : Session :=
  match s.task_state with
  | some ts => { s with task_state := some { ts with iteration := i } }
  | none => s

/-- Observable outcome of one executed loop iteration: terminal step,
continue step (recording whether the budget check then fired), or a
propagated capability error. -/
inductive IterEvent where
  | terminal
  | continued (budget_exceeded : Bool)
  | errored
deriving DecidableEq, Repr

/-- One `store.save(&session)` call: the session passed and the store's
reply.  The source ignores the reply apart from a log line. -/
structure SaveAttempt where
  saved : Session
  outcome : Except Error Unit

/-- Result of the ReAct loop: the returned value, the final in-memory
session, the trace of save attempts, and the trace of iteration events. -/
structure LoopOut where
  result : Except Error AgentResult
  session : Session
  saves : List SaveAttempt
  events : List IterEvent

/-- The persistence block of `execute`: save iff persistence is enabled and a
session store is bound; the outcome is recorded but never inspected. -/
def attemptPersist (env : Env) (cfg : ReActConfig) (s : Session) : List SaveAttempt :=
  if cfg.persist_state then
    match env.session_store with
    | some save => [{ saved := s, outcome := save s }]
    | none => []
  else []

/-- The `for iteration in 0..max_iterations` loop of
`ReActController::execute` for `ComplexMission`, with `remaining` the number
of passes left (`max_iterations - iteration`). -/
def react_loop (env : Env) (cfg : ReActConfig) (s : Session) (iteration remaining : Nat) :
    LoopOut :=
  match remaining with
  | 0 =>
    { result := .error (.MaxIterationsExceeded cfg.max_iterations)
      session := { s with status := .Failed }
      saves := []
      events := [] }
  | r + 1 =>
    let res := execute_iteration env (set_task_iteration s iteration)
    match res.2 with
    | .error e => { result := .error e, session := res.1, saves := [], events := [.errored] }
    | .ok (some result) =>
      let s2 := { res.1 with updated_at := env.now, status := .Completed }
      { result := .ok result
        session := s2
        saves := attemptPersist env cfg s2
        events := [.terminal] }
    | .ok none =>
      let s2 := { res.1 with updated_at := env.now }
      let saves := attemptPersist env cfg s2
      if s2.token_usage.is_exceeded then
        { result := .error (.BudgetExceeded s2.token_usage.total_tokens s2.token_usage.budget_limit)
          session := { s2 with status := .Failed }
          saves := saves
          events := [.continued true] }
      else
        let rest := react_loop env cfg s2 (iteration + 1) r
        { result := rest.result
          session := rest.session
          saves := saves ++ rest.saves
          events := .continued false :: rest.events }

/-- Rust `format!("{:?}", visual_refs)` on a `Vec<String>` without escapes:
each reference double-quoted, comma-separated, in square brackets. -/
def debugFormatRefs (refs : List Str) : Str :=
  '[' :: (List.intercalate (", ".data) (refs.map fun r => '"' :: (r ++ ['"'])) ++ [']'])

/-- Content of the user-role context entry appended before the loop starts. -/
def context_entry_content (context_summary : Str) (visual_refs : List Str) : Str :=
  if visual_refs.isEmpty then context_summary
  else context_summary ++ ("\n\nReferences: ".data) ++ debugFormatRefs visual_refs

/-- `ReActController::execute` on `UserIntent::ComplexMission`. -/
def execute_complex (env : Env) (cfg : ReActConfig)
    (goal context_summary : Str) (visual_refs : List Str) : LoopOut :=
  let s := create_session env cfg goal
  let s := push_history s
    { role := "user".data
      content := context_entry_content context_summary visual_refs
      tool_call := none
      timestamp := env.now }
  react_loop env cfg s 0 cfg.max_iterations

/-- `ReActController::execute` on `UserIntent::FastAction`: the fast path. -/
def execute_fast (env : Env) (tool_name : Str) (args : Json) : Except Error AgentResult :=
  match env.tools with
  | some exec =>
    match exec tool_name args with
    | .ok output =>
      if output.success then .ok (.Text output.content)
      else .ok (.Error output.content ("TOOL_ERROR".data))
    | .error e => .ok (.Error e.toMessage ("TOOL_NOT_FOUND".data))
  | none =>
    .ok (.Text (("Fast path: would execute tool '".data) ++ tool_name
      ++ ("'. Tools not configured.".data)))

/-- Replay a whole sequence of `add` calls. -/
def apply_adds (u : TokenUsage) (l : List (Nat × Nat)) : TokenUsage :=
  l.foldl (fun acc pc => acc.add pc.1 pc.2) u

/-- Modelled from the spec: the action-decoding grammar exactly as §4.1 and
claim C1 word it — five strictly ordered, case-sensitive cases over the
trimmed text, each consuming only the first line after its marker, with the
guaranteed `Think` fallback.  This is the refinement counterpart to be
compared against `parse_action`, which is translated from the source. -/
def decoder_spec (pj : Str → Option Json) (input : Str) : ReActAction :=
  let t := rustTrim input
  if finalAnswerMarker.isPrefixOf t then
    .FinalAnswer (rustTrim (t.drop finalAnswerMarker.length))
  else if containsStr actionMarker t then
    let rest := (afterFirst actionMarker t).getD []
    let name := rustTrim ((firstLineOpt rest).getD [])
    let args :=
      match afterFirst argsMarker rest with
      | some args_str =>
        (pj (rustTrim ((firstLineOpt args_str).getD defaultArgsLine))).getD Json.emptyObj
      | none => Json.emptyObj
    .ToolCall name args
  else if thoughtMarker.isPrefixOf t then
    .Think (rustTrim (t.drop thoughtMarker.length))
  else if containsStr delegateMarker t then
    let rest := (afterFirst delegateMarker t).getD []
    .Delegate (rustTrim ((firstLineOpt rest).getD []))
      (match afterFirst contextMarker rest with
       | some after => rustTrim ((firstLineOpt after).getD [])
       | none => [])
  else .Think t

/-! ### Concrete fixtures used by witnesses -/

/-- A JSON parser stand-in that rejects every line. -/
def pjNone : Str → Option Json := fun _ => none

/-- A controller with no capability bound at all. -/
def envBare : Env :=
  { llm := none, tools := none, session_store := none, compressor := none,
    delegator := none, parse_json := pjNone, now := 0, fresh_id := "session-0".data }

/-- A session store whose saves always succeed. -/
def okStore : Session → Except Error Unit := fun _ => .ok ()

/-- A session store whose saves always fail. -/
def failStore : Session → Except Error Unit := fun _ => .error (.Capability ("disk full".data))

/-- Controller with only a session store bound (mock reasoning path). -/
def envMockStore : Env := { envBare with session_store := some okStore }

/-- A reasoning backend that always returns a marker-free reply with zero
token usage, so every decoded action is the `Think` fallback. -/
def thinkLlm : List ChatMessage → Except Error LlmResponse :=
  fun _ => .ok { content := "pondering".data, usage := { prompt_tokens := 0, completion_tokens := 0 } }

/-- Controller that thinks forever on a zero-usage backend. -/
def envThink : Env := { envBare with llm := some thinkLlm }

/-- A reasoning backend that reports 5 prompt and 5 completion tokens. -/
def usage55Llm : List ChatMessage → Except Error LlmResponse :=
  fun _ => .ok { content := "pondering".data, usage := { prompt_tokens := 5, completion_tokens := 5 } }

/-- Controller that burns 10 tokens per iteration and persists sessions. -/
def envBudget : Env := { envBare with llm := some usage55Llm, session_store := some okStore }

/-- Two-iteration, no-persistence configuration. -/
def cfgTwo : ReActConfig := { max_iterations := 2, default_budget := 10, persist_state := false }

/-- Tight-budget configuration. -/
def cfgTight : ReActConfig := { max_iterations := 5, default_budget := 1, persist_state := true }

/-- Session started by the tight-budget controller. -/
def sTight : Session := create_session envBudget cfgTight ("goal".data)

/-- A delegator whose sub-tasks always succeed with a fixed result. -/
def okDelegator : DelegationRequest → Except Error DelegationResult :=
  fun _ => .ok { success := true, result := "done".data, error := none }

/-- Controller with only a delegator bound. -/
def envDelegate : Env := { envBare with delegator := some okDelegator }

/-- The fresh task state of a session created for goal `"goal"`. -/
def tsGoal : TaskState :=
  { iteration := 0, goal := "goal".data, observations := [], pending_actions := [] }

/-- Session started by the delegator-only controller. -/
def sDelegate : Session := create_session envDelegate ReActConfig.default ("goal".data)

/-- The fixed reply produced by `thinkLlm`. -/
def respThink : LlmResponse :=
  { content := "pondering".data, usage := { prompt_tokens := 0, completion_tokens := 0 } }

/-- A compressor that never triggers and, when called, folds nothing. -/
def truncComp : Compressor :=
  { needs_compression := fun _ => false
    compress := fun m => .ok { messages := m, messages_compressed := 0, estimated_tokens := 0 } }

/-- Session started by the think-forever controller. -/
def sThink : Session := create_session envThink cfgTwo ("goal".data)

/-- The save attempt recorded by the mock-path run with a bound store. -/
def mockFinalSave : SaveAttempt :=
  { saved := (execute_complex envMockStore ReActConfig.default ("Test goal".data) ("ctx".data) []).session
    outcome := .ok () }

/-! ## Theorems -/

theorem sum_map_add (l : List (Nat × Nat)) :
    (l.map fun pc => pc.1 + pc.2).sum = (l.map Prod.fst).sum + (l.map Prod.snd).sum := by
  induction l with
  | nil => simp
  | cons x t ih => simp [ih]; omega

theorem apply_adds_fields (l : List (Nat × Nat)) (u : TokenUsage) :
    (apply_adds u l).prompt_tokens = u.prompt_tokens + (l.map Prod.fst).sum
    ∧ (apply_adds u l).completion_tokens = u.completion_tokens + (l.map Prod.snd).sum
    ∧ (apply_adds u l).total_tokens = u.total_tokens + (l.map fun pc => pc.1 + pc.2).sum
    ∧ (apply_adds u l).budget_limit = u.budget_limit := by
  induction l generalizing u with
  | nil => simp [apply_adds]
  | cons x t ih =>
    have h := ih (u.add x.1 x.2)
    have e : apply_adds u (x :: t) = apply_adds (u.add x.1 x.2) t := rfl
    rw [e]
    refine ⟨?_, ?_, ?_, ?_⟩
    · rw [h.1]; simp only [TokenUsage.add, List.map_cons, List.sum_cons]; omega
    · rw [h.2.1]; simp only [TokenUsage.add, List.map_cons, List.sum_cons]; omega
    · rw [h.2.2.1]; simp only [TokenUsage.add, List.map_cons, List.sum_cons]; omega
    · rw [h.2.2.2]; rfl

/-- C4: `add` bumps all three counters by the call's amounts with no clamp and
never decrements; starting from `with_budget`, after any sequence of `add`
calls the counters are the exact sums and `total = prompt + completion`;
`is_exceeded` is `total ≥ limit` with the boundary inclusive; `remaining` is
`limit - total` floored at zero. -/
theorem tokenUsage_accounting :
    (∀ (u : TokenUsage) (p c : Nat),
        (u.add p c).prompt_tokens = u.prompt_tokens + p
      ∧ (u.add p c).completion_tokens = u.completion_tokens + c
      ∧ (u.add p c).total_tokens = u.total_tokens + (p + c)
      ∧ (u.add p c).budget_limit = u.budget_limit
      ∧ u.prompt_tokens ≤ (u.add p c).prompt_tokens
      ∧ u.completion_tokens ≤ (u.add p c).completion_tokens
      ∧ u.total_tokens ≤ (u.add p c).total_tokens)
    ∧ (∀ (limit : Nat) (l : List (Nat × Nat)),
        (apply_adds (TokenUsage.with_budget limit) l).prompt_tokens = (l.map Prod.fst).sum
      ∧ (apply_adds (TokenUsage.with_budget limit) l).completion_tokens = (l.map Prod.snd).sum
      ∧ (apply_adds (TokenUsage.with_budget limit) l).total_tokens
          = (apply_adds (TokenUsage.with_budget limit) l).prompt_tokens
            + (apply_adds (TokenUsage.with_budget limit) l).completion_tokens
      ∧ (apply_adds (TokenUsage.with_budget limit) l).budget_limit = limit)
    ∧ (∀ u : TokenUsage, u.is_exceeded = true ↔ u.budget_limit ≤ u.total_tokens)
    ∧ (∀ u : TokenUsage, (u.remaining : Int) = max ((u.budget_limit : Int) - (u.total_tokens : Int)) 0) := by
  refine ⟨fun u p c => ?_, fun limit l => ?_, fun u => ?_, fun u => ?_⟩
  · refine ⟨?_, ?_, ?_, ?_, ?_, ?_, ?_⟩ <;> simp [TokenUsage.add]
  · have h := apply_adds_fields l (TokenUsage.with_budget limit)
    refine ⟨?_, ?_, ?_, ?_⟩
    · rw [h.1]; simp [TokenUsage.with_budget]
    · rw [h.2.1]; simp [TokenUsage.with_budget]
    · rw [h.2.2.1, h.1, h.2.1]
      simp only [TokenUsage.with_budget, sum_map_add]
      omega
    · rw [h.2.2.2]; rfl
  · simp [TokenUsage.is_exceeded, ge_iff_le]
  · simp only [TokenUsage.remaining]
    omega

/-- C1: action decoding is a total, deterministic, pure function (`parse_action`
is a plain Lean function, so totality and determinism are structural), and it
agrees with the five-case strict-precedence grammar `decoder_spec` written
from the claim's wording, for every input string and every behaviour of the
external JSON parser. -/
theorem parse_action_matches_decoder_spec (pj : Str → Option Json) (s : Str) :
    parse_action pj s = decoder_spec pj s := by
  unfold parse_action decoder_spec stripPrefixStr containsStr
  by_cases h1 : finalAnswerMarker.isPrefixOf (rustTrim s)
  · simp [h1]
  · simp only [h1, if_false, Bool.false_eq_true, reduceIte]
    cases h2 : afterFirst actionMarker (rustTrim s) with
    | some rest => simp [h2]
    | none =>
      simp only [h2, Option.isSome_none, Bool.false_eq_true, reduceIte]
      by_cases h3 : thoughtMarker.isPrefixOf (rustTrim s)
      · simp [h3]
      · simp only [h3, if_false, Bool.false_eq_true, reduceIte]
        cases h4 : afterFirst delegateMarker (rustTrim s) with
        | some rest => simp [h4]
        | none => simp [h4]

/-- Spec §8 decoder example: a `FINAL ANSWER:` line decodes to `FinalAnswer`
of the trimmed remainder, for any JSON parser. -/
theorem decode_final_answer_example :
    parse_action (fun _ => none) ("FINAL ANSWER: The result is 42.".data)
      = .FinalAnswer ("The result is 42.".data) := by rfl

/-- Spec §8 decoder example: a bare `THOUGHT:` response decodes to `Think`. -/
theorem decode_thought_example :
    parse_action (fun _ => none) ("THOUGHT: I need to think about this more.".data)
      = .Think ("I need to think about this more.".data) := by rfl

/-- Spec §8 decoder example: `ACTION:` + `ARGS:` lines decode to a tool call
whose name is the trimmed first line after `ACTION:` and whose args are the
parse of the first line after `ARGS:` (here with a parser fixture that maps
the argument line to a recognizable object). -/
theorem decode_tool_call_example :
    parse_action (fun l => some (.obj [(("raw".data : Str), .str l)]))
      ("THOUGHT: I need to calculate something.\nACTION: calculator\nARGS: 5".data)
      = .ToolCall ("calculator".data) (.obj [(("raw".data : Str), .str ("5".data))]) := by rfl

/-- C6: the fast path always produces a result, never an error: tool success
maps to a text result with the tool's content, a tool-level failure to a
structured error result with code `TOOL_ERROR`, a tool-backend error to a
structured error result with code `TOOL_NOT_FOUND`, and an unbound tool
backend to a plain text result that mentions the tool name. -/
theorem fast_action_never_raises (env : Env) (name : Str) (args : Json) :
    (∃ r, execute_fast env name args = .ok r)
    ∧ (env.tools = none →
        ∃ pre suf, execute_fast env name args = .ok (.Text (pre ++ name ++ suf)))
    ∧ (∀ exec output, env.tools = some exec → exec name args = .ok output →
        (output.success = true →
          execute_fast env name args = .ok (.Text output.content))
        ∧ (output.success = false →
          execute_fast env name args = .ok (.Error output.content ("TOOL_ERROR".data))))
    ∧ (∀ exec e, env.tools = some exec → exec name args = .error e →
        execute_fast env name args = .ok (.Error e.toMessage ("TOOL_NOT_FOUND".data))) := by
  refine ⟨?_, ?_, ?_, ?_⟩
  · cases htools : env.tools with
    | none =>
      exact ⟨.Text (("Fast path: would execute tool '".data) ++ name
        ++ ("'. Tools not configured.".data)), by simp [execute_fast, htools]⟩
    | some exec =>
      cases hexec : exec name args with
      | ok output =>
        by_cases hs : output.success
        · exact ⟨.Text output.content, by simp [execute_fast, htools, hexec, hs]⟩
        · exact ⟨.Error output.content ("TOOL_ERROR".data),
            by simp [execute_fast, htools, hexec, hs]⟩
      | error e =>
        exact ⟨.Error e.toMessage ("TOOL_NOT_FOUND".data),
          by simp [execute_fast, htools, hexec]⟩
  · intro hnone
    exact ⟨("Fast path: would execute tool '".data), ("'. Tools not configured.".data),
      by simp [execute_fast, hnone]⟩
  · intro exec output hsome hok
    constructor
    · intro hs; simp [execute_fast, hsome, hok, hs]
    · intro hs; simp [execute_fast, hsome, hok, hs]
  · intro exec e hsome herr
    simp [execute_fast, hsome, herr]

/-- Witness for C6 at the repository's own test fixture (`test_fast_action`):
no tool backend bound, tool name `test_tool` — a text result mentioning the
tool name. -/
theorem fast_action_never_raises_witness :
    ∃ pre suf,
      execute_fast envBare ("test_tool".data) Json.emptyObj
        = .ok (.Text (pre ++ ("test_tool".data) ++ suf)) :=
  (fast_action_never_raises envBare ("test_tool".data) Json.emptyObj).2.1 rfl

theorem set_task_iteration_status (s : Session) (i : Nat) :
    (set_task_iteration s i).status = s.status := by
  cases hts : s.task_state <;> simp [set_task_iteration, hts]

theorem set_task_iteration_history (s : Session) (i : Nat) :
    (set_task_iteration s i).history = s.history := by
  cases hts : s.task_state <;> simp [set_task_iteration, hts]

theorem push_observation_status (s : Session) (obs : Str) :
    (push_observation s obs).status = s.status := by
  cases hts : s.task_state <;> simp [push_observation, hts]

theorem push_observation_history (s : Session) (obs : Str) :
    (push_observation s obs).history = s.history := by
  cases hts : s.task_state <;> simp [push_observation, hts]

theorem apply_action_status (env : Env) (s : Session) (a : ReActAction) :
    (apply_action env s a).1.status = s.status := by
  cases a with
  | FinalAnswer answer => rfl
  | ToolCall name args =>
    simp only [apply_action]
    rw [push_observation_status]
    simp [push_history]
  | Think t => simp [apply_action, push_history]
  | Delegate objective context =>
    simp only [apply_action]
    rw [push_observation_status]
    simp [push_history]

theorem apply_action_history (env : Env) (s : Session) (a : ReActAction) :
    ∃ tail, (apply_action env s a).1.history = s.history ++ tail
      ∧ tail.length ≤ 1
      ∧ ((apply_action env s a).2 = none → tail.length = 1)
      ∧ ∀ e ∈ tail, e.role = "user".data := by
  cases a with
  | FinalAnswer answer =>
    exact ⟨[], by simp [apply_action], by simp, by simp [apply_action], by simp⟩
  | ToolCall name args =>
    refine ⟨[{ role := "user".data
               content := ("OBSERVATION: ".data) ++ toolObservation env name args
               tool_call := some { name := name, arguments := args,
                                   result := some (toolObservation env name args) }
               timestamp := env.now }], ?_, by simp, fun _ => by simp, by simp⟩
    simp only [apply_action]
    rw [push_observation_history]
    simp [push_history]
  | Think t =>
    exact ⟨[nudge_entry env.now], by simp [apply_action, push_history], by simp,
      fun _ => by simp, by simp [nudge_entry]⟩
  | Delegate objective context =>
    refine ⟨[{ role := "user".data
               content := ("DELEGATION RESULT: ".data) ++ delegateObservation env objective context
               tool_call := none
               timestamp := env.now }], ?_, by simp, fun _ => by simp, by simp⟩
    simp only [apply_action]
    rw [push_observation_history]
    simp [push_history]

theorem execute_iteration_status (env : Env) (s : Session) :
    (execute_iteration env s).1.status = s.status := by
  cases hllm : env.llm with
  | none => simp [execute_iteration, hllm]
  | some chat =>
    simp only [execute_iteration, execute_iteration_with_llm, hllm]
    cases hcv : compress_view env (build_messages s) with
    | error e => simp [hcv]
    | ok msgs =>
      simp only [hcv]
      cases hr : chat msgs with
      | error e => simp [hr]
      | ok response =>
        simp only [hr]
        rw [apply_action_status]
        simp [push_history, add_usage]

theorem execute_iteration_history (env : Env) (s : Session) :
    ∃ t, (execute_iteration env s).1.history = s.history ++ t := by
  cases hllm : env.llm with
  | none => exact ⟨[], by simp [execute_iteration, hllm]⟩
  | some chat =>
    simp only [execute_iteration, execute_iteration_with_llm, hllm]
    cases hcv : compress_view env (build_messages s) with
    | error e => exact ⟨[], by simp [hcv]⟩
    | ok msgs =>
      simp only [hcv]
      cases hr : chat msgs with
      | error e => exact ⟨[], by simp [hr]⟩
      | ok response =>
        simp only [hr]
        obtain ⟨tail, htail, -, -, -⟩ := apply_action_history env
          (push_history (add_usage s response.usage) (assistant_entry response.content env.now))
          (parse_action env.parse_json response.content)
        refine ⟨assistant_entry response.content env.now :: tail, ?_⟩
        rw [htail]
        simp [push_history, add_usage]

theorem mem_attemptPersist {env : Env} {cfg : ReActConfig} {s : Session} {a : SaveAttempt}
    (h : a ∈ attemptPersist env cfg s) : a.saved = s := by
  by_cases hp : cfg.persist_state = true
  · cases hst : env.session_store with
    | none => simp [attemptPersist, hp, hst] at h
    | some save => simp [attemptPersist, hp, hst] at h; rw [h]
  · simp [attemptPersist, hp] at h

theorem attemptPersist_some (env : Env) (cfg : ReActConfig) (s : Session)
    (save : Session → Except Error Unit)
    (hp : cfg.persist_state = true) (hs : env.session_store = some save) :
    attemptPersist env cfg s = [{ saved := s, outcome := save s }] := by
  simp [attemptPersist, hp, hs]

theorem react_loop_all_continue (env : Env) (cfg : ReActConfig) :
    ∀ (r : Nat) (s : Session) (i : Nat),
      (∀ e ∈ (react_loop env cfg s i r).events, e = IterEvent.continued false) →
      (react_loop env cfg s i r).result = .error (.MaxIterationsExceeded cfg.max_iterations)
      ∧ (react_loop env cfg s i r).events.length = r
      ∧ (react_loop env cfg s i r).session.status = .Failed := by
  intro r
  induction r with
  | zero =>
    intro s i _
    exact ⟨rfl, rfl, rfl⟩
  | succ r ih =>
    intro s i h
    cases hstep : (execute_iteration env (set_task_iteration s i)).2 with
    | error e =>
      have hev : (react_loop env cfg s i (r + 1)).events = [.errored] := by
        simp [react_loop, hstep]
      have hc := h .errored (by rw [hev]; simp)
      simp at hc
    | ok o =>
      cases o with
      | some result =>
        have hev : (react_loop env cfg s i (r + 1)).events = [.terminal] := by
          simp [react_loop, hstep]
        have hc := h .terminal (by rw [hev]; simp)
        simp at hc
      | none =>
        cases hb : (execute_iteration env (set_task_iteration s i)).1.token_usage.is_exceeded with
        | true =>
          have hev : (react_loop env cfg s i (r + 1)).events = [.continued true] := by
            simp [react_loop, hstep, hb]
          have hc := h (.continued true) (by rw [hev]; simp)
          simp at hc
        | false =>
          have hev : (react_loop env cfg s i (r + 1)).events
              = .continued false
                :: (react_loop env cfg
                      { (execute_iteration env (set_task_iteration s i)).1 with updated_at := env.now }
                      (i + 1) r).events := by
            simp [react_loop, hstep, hb]
          have hres : (react_loop env cfg s i (r + 1)).result
              = (react_loop env cfg
                  { (execute_iteration env (set_task_iteration s i)).1 with updated_at := env.now }
                  (i + 1) r).result := by
            simp [react_loop, hstep, hb]
          have hsess : (react_loop env cfg s i (r + 1)).session
              = (react_loop env cfg
                  { (execute_iteration env (set_task_iteration s i)).1 with updated_at := env.now }
                  (i + 1) r).session := by
            simp [react_loop, hstep, hb]
          obtain ⟨h1, h2, h3⟩ := ih
            { (execute_iteration env (set_task_iteration s i)).1 with updated_at := env.now }
            (i + 1)
            (fun e he => h e (by rw [hev]; exact List.mem_cons_of_mem _ he))
          refine ⟨hres.trans h1, ?_, hsess ▸ h3⟩
          rw [hev]
          simp [h2]

/-- C2: in a `ComplexMission` run in which every executed iteration yields
"continue" with the budget check not firing (no terminal outcome, budget
never exceeded, no propagated capability error), the loop executes exactly
`max_iterations` iterations, sets the session status to `Failed`, and the
single returned value is the error `MaxIterationsExceeded(max_iterations)` —
it never runs an iteration beyond the configured maximum. -/
theorem complex_mission_max_iterations (env : Env) (cfg : ReActConfig)
    (goal ctx : Str) (refs : List Str)
    (hall : ∀ e ∈ (execute_complex env cfg goal ctx refs).events, e = IterEvent.continued false) :
    (execute_complex env cfg goal ctx refs).result
        = .error (.MaxIterationsExceeded cfg.max_iterations)
    ∧ (execute_complex env cfg goal ctx refs).events.length = cfg.max_iterations
    ∧ (execute_complex env cfg goal ctx refs).session.status = .Failed := by
  simp only [execute_complex] at hall ⊢
  exact react_loop_all_continue env cfg cfg.max_iterations _ 0 hall

/-- Witness for C2: a controller whose reasoning backend always replies with
marker-free text (decoded as `Think`) and reports zero token usage, with
`max_iterations = 2`, fails with `MaxIterationsExceeded 2` after exactly two
iterations. -/
theorem complex_mission_max_iterations_witness :
    (execute_complex envThink cfgTwo ("goal".data) ("ctx".data) []).result
        = .error (.MaxIterationsExceeded cfgTwo.max_iterations)
    ∧ (execute_complex envThink cfgTwo ("goal".data) ("ctx".data) []).events.length
        = cfgTwo.max_iterations
    ∧ (execute_complex envThink cfgTwo ("goal".data) ("ctx".data) []).session.status = .Failed :=
  complex_mission_max_iterations envThink cfgTwo ("goal".data) ("ctx".data) [] (by decide)

/-- C3: when an iteration yields "continue" with persistence enabled and a
store bound, the loop first saves the intermediate session — the session
passed to the store still carries the pre-iteration status, not `Failed` —
and only then checks the budget; if the budget is hit, the call returns
`BudgetExceeded` carrying the used total and the limit and the final status
is `Failed`, even though `r` more iterations remained. -/
theorem budget_exceeded_after_persist (env : Env) (cfg : ReActConfig)
    (s : Session) (i r : Nat) (save : Session → Except Error Unit)
    (hp : cfg.persist_state = true) (hs : env.session_store = some save)
    (hstep : (execute_iteration env (set_task_iteration s i)).2 = .ok none)
    (hexc : (execute_iteration env (set_task_iteration s i)).1.token_usage.is_exceeded = true) :
    (react_loop env cfg s i (r + 1)).result
        = .error (.BudgetExceeded
            (execute_iteration env (set_task_iteration s i)).1.token_usage.total_tokens
            (execute_iteration env (set_task_iteration s i)).1.token_usage.budget_limit)
    ∧ (react_loop env cfg s i (r + 1)).session.status = .Failed
    ∧ (react_loop env cfg s i (r + 1)).saves
        = [{ saved := { (execute_iteration env (set_task_iteration s i)).1 with updated_at := env.now }
             outcome := save { (execute_iteration env (set_task_iteration s i)).1 with updated_at := env.now } }]
    ∧ ∀ a ∈ (react_loop env cfg s i (r + 1)).saves, a.saved.status = s.status := by
  refine ⟨?_, ?_, ?_, ?_⟩
  · simp [react_loop, hstep, hexc]
  · simp [react_loop, hstep, hexc]
  · simp [react_loop, hstep, hexc, attemptPersist, hp, hs]
  · intro a ha
    have hsv : (react_loop env cfg s i (r + 1)).saves
        = attemptPersist env cfg
            { (execute_iteration env (set_task_iteration s i)).1 with updated_at := env.now } := by
      simp [react_loop, hstep, hexc, attemptPersist, hp, hs]
    rw [hsv] at ha
    rw [mem_attemptPersist ha]
    have h1 : (execute_iteration env (set_task_iteration s i)).1.status = s.status := by
      rw [execute_iteration_status, set_task_iteration_status]
    exact h1

/-- Witness for C3: a backend that burns 10 tokens per reply against a budget
of 1 makes the very first iteration persist the still-`Running` session and
then fail with `BudgetExceeded 10 1`, with 4 iterations remaining below the
configured maximum of 5. -/
theorem budget_exceeded_after_persist_witness :
    (react_loop envBudget cfgTight sTight 0 (3 + 1)).result
        = .error (.BudgetExceeded
            (execute_iteration envBudget (set_task_iteration sTight 0)).1.token_usage.total_tokens
            (execute_iteration envBudget (set_task_iteration sTight 0)).1.token_usage.budget_limit)
    ∧ (react_loop envBudget cfgTight sTight 0 (3 + 1)).session.status = .Failed
    ∧ (react_loop envBudget cfgTight sTight 0 (3 + 1)).saves
        = [{ saved := { (execute_iteration envBudget (set_task_iteration sTight 0)).1 with updated_at := envBudget.now }
             outcome := okStore { (execute_iteration envBudget (set_task_iteration sTight 0)).1 with updated_at := envBudget.now } }]
    ∧ ∀ a ∈ (react_loop envBudget cfgTight sTight 0 (3 + 1)).saves, a.saved.status = sTight.status :=
  budget_exceeded_after_persist envBudget cfgTight sTight 0 3 okStore rfl rfl (by rfl) (by rfl)

theorem react_loop_save_count (env : Env) (cfg : ReActConfig)
    (save : Session → Except Error Unit)
    (hp : cfg.persist_state = true) (hs : env.session_store = some save) :
    ∀ (r : Nat) (s : Session) (i : Nat),
      (react_loop env cfg s i r).saves.length
        = ((react_loop env cfg s i r).events.filter
            fun e => decide (e ≠ IterEvent.errored)).length := by
  intro r
  induction r with
  | zero => intro s i; rfl
  | succ r ih =>
    intro s i
    cases hstep : (execute_iteration env (set_task_iteration s i)).2 with
    | error e => simp [react_loop, hstep]
    | ok o =>
      cases o with
      | some result => simp [react_loop, hstep, attemptPersist, hp, hs]
      | none =>
        cases hb : (execute_iteration env (set_task_iteration s i)).1.token_usage.is_exceeded with
        | true => simp [react_loop, hstep, hb, attemptPersist, hp, hs]
        | false =>
          have h := ih
            { (execute_iteration env (set_task_iteration s i)).1 with updated_at := env.now }
            (i + 1)
          simp [react_loop, hstep, hb, attemptPersist, hp, hs, h]

theorem react_loop_store_irrelevant (env : Env) (cfg : ReActConfig)
    (save1 save2 : Session → Except Error Unit)
    (hs : env.session_store = some save1) :
    ∀ (r : Nat) (s : Session) (i : Nat),
      (react_loop { env with session_store := some save2 } cfg s i r).result
          = (react_loop env cfg s i r).result
      ∧ (react_loop { env with session_store := some save2 } cfg s i r).session
          = (react_loop env cfg s i r).session
      ∧ (react_loop { env with session_store := some save2 } cfg s i r).events
          = (react_loop env cfg s i r).events
      ∧ (react_loop { env with session_store := some save2 } cfg s i r).saves.map (fun a => a.saved)
          = (react_loop env cfg s i r).saves.map (fun a => a.saved) := by
  have hiter : ∀ s : Session,
      execute_iteration { env with session_store := some save2 } s = execute_iteration env s :=
    fun _ => rfl
  have hmap : ∀ s : Session,
      (attemptPersist { env with session_store := some save2 } cfg s).map (fun a => a.saved)
        = (attemptPersist env cfg s).map (fun a => a.saved) := by
    intro s
    by_cases hp2 : cfg.persist_state = true
    · simp [attemptPersist, hp2, hs]
    · simp [attemptPersist, hp2]
  intro r
  induction r with
  | zero => intro s i; exact ⟨rfl, rfl, rfl, rfl⟩
  | succ r ih =>
    intro s i
    cases hstep : (execute_iteration env (set_task_iteration s i)).2 with
    | error e =>
      refine ⟨?_, ?_, ?_, ?_⟩ <;> simp [react_loop, hiter, hstep]
    | ok o =>
      cases o with
      | some result =>
        refine ⟨?_, ?_, ?_, ?_⟩ <;> simp [react_loop, hiter, hstep, hmap]
      | none =>
        cases hb : (execute_iteration env (set_task_iteration s i)).1.token_usage.is_exceeded with
        | true =>
          refine ⟨?_, ?_, ?_, ?_⟩ <;> simp [react_loop, hiter, hstep, hb, hmap]
        | false =>
          have h := ih
            { (execute_iteration env (set_task_iteration s i)).1 with updated_at := env.now }
            (i + 1)
          refine ⟨?_, ?_, ?_, ?_⟩ <;>
            simp [react_loop, hiter, hstep, hb, hmap, h.1, h.2.1, h.2.2.1, h.2.2.2]

/-- C9: with persistence enabled and a store bound, one save is attempted per
iteration that completes its step — terminal ones included; only iterations
aborted by a propagated capability error perform none — and the store's
reply is never inspected: replacing the bound store by any other (including
an always-failing one) leaves the returned result, the final in-memory
session, the event trace, and the sequence of saved sessions unchanged. -/
theorem persistence_every_iteration (env : Env) (cfg : ReActConfig)
    (goal ctx : Str) (refs : List Str)
    (save save2 : Session → Except Error Unit)
    (hp : cfg.persist_state = true) (hs : env.session_store = some save) :
    (execute_complex env cfg goal ctx refs).saves.length
        = ((execute_complex env cfg goal ctx refs).events.filter
            fun e => decide (e ≠ IterEvent.errored)).length
    ∧ (execute_complex { env with session_store := some save2 } cfg goal ctx refs).result
        = (execute_complex env cfg goal ctx refs).result
    ∧ (execute_complex { env with session_store := some save2 } cfg goal ctx refs).session
        = (execute_complex env cfg goal ctx refs).session
    ∧ (execute_complex { env with session_store := some save2 } cfg goal ctx refs).events
        = (execute_complex env cfg goal ctx refs).events
    ∧ (execute_complex { env with session_store := some save2 } cfg goal ctx refs).saves.map (fun a => a.saved)
        = (execute_complex env cfg goal ctx refs).saves.map (fun a => a.saved) := by
  have h := react_loop_store_irrelevant env cfg save save2 hs cfg.max_iterations
    (push_history (create_session env cfg goal)
      { role := "user".data, content := context_entry_content ctx refs,
        tool_call := none, timestamp := env.now }) 0
  exact ⟨react_loop_save_count env cfg save hp hs cfg.max_iterations _ 0,
    h.1, h.2.1, h.2.2.1, h.2.2.2⟩

/-- Witness for C9: the mock-path controller with a bound always-succeeding
store performs exactly one save for its one (terminal) iteration, and
swapping in an always-failing store changes nothing observable. -/
theorem persistence_every_iteration_witness :
    (execute_complex envMockStore ReActConfig.default ("Test goal".data) ("ctx".data) []).saves.length
        = ((execute_complex envMockStore ReActConfig.default ("Test goal".data) ("ctx".data) []).events.filter
            fun e => decide (e ≠ IterEvent.errored)).length
    ∧ (execute_complex { envMockStore with session_store := some failStore }
          ReActConfig.default ("Test goal".data) ("ctx".data) []).result
        = (execute_complex envMockStore ReActConfig.default ("Test goal".data) ("ctx".data) []).result
    ∧ (execute_complex { envMockStore with session_store := some failStore }
          ReActConfig.default ("Test goal".data) ("ctx".data) []).session
        = (execute_complex envMockStore ReActConfig.default ("Test goal".data) ("ctx".data) []).session
    ∧ (execute_complex { envMockStore with session_store := some failStore }
          ReActConfig.default ("Test goal".data) ("ctx".data) []).events
        = (execute_complex envMockStore ReActConfig.default ("Test goal".data) ("ctx".data) []).events
    ∧ (execute_complex { envMockStore with session_store := some failStore }
          ReActConfig.default ("Test goal".data) ("ctx".data) []).saves.map (fun a => a.saved)
        = (execute_complex envMockStore ReActConfig.default ("Test goal".data) ("ctx".data) []).saves.map (fun a => a.saved) :=
  persistence_every_iteration envMockStore ReActConfig.default ("Test goal".data) ("ctx".data) []
    okStore failStore rfl rfl

theorem react_loop_saves_status (env : Env) (cfg : ReActConfig) :
    ∀ (r : Nat) (s : Session) (i : Nat), s.status = .Running →
      ∀ a ∈ (react_loop env cfg s i r).saves,
        a.saved.status = .Running ∨ a.saved.status = .Completed := by
  intro r
  induction r with
  | zero =>
    intro s i _ a ha
    simp [react_loop] at ha
  | succ r ih =>
    intro s i hrun a ha
    have hst1 : (execute_iteration env (set_task_iteration s i)).1.status = .Running := by
      rw [execute_iteration_status, set_task_iteration_status]; exact hrun
    cases hstep : (execute_iteration env (set_task_iteration s i)).2 with
    | error e =>
      rw [show (react_loop env cfg s i (r + 1)).saves = [] by simp [react_loop, hstep]] at ha
      simp at ha
    | ok o =>
      cases o with
      | some result =>
        have hsv : (react_loop env cfg s i (r + 1)).saves
            = attemptPersist env cfg
                { (execute_iteration env (set_task_iteration s i)).1 with
                    updated_at := env.now, status := .Completed } := by
          simp [react_loop, hstep]
        rw [hsv] at ha
        right
        rw [mem_attemptPersist ha]
      | none =>
        cases hb : (execute_iteration env (set_task_iteration s i)).1.token_usage.is_exceeded with
        | true =>
          have hsv : (react_loop env cfg s i (r + 1)).saves
              = attemptPersist env cfg
                  { (execute_iteration env (set_task_iteration s i)).1 with
                      updated_at := env.now } := by
            simp [react_loop, hstep, hb]
          rw [hsv] at ha
          left
          rw [mem_attemptPersist ha]
          exact hst1
        | false =>
          have hsv : (react_loop env cfg s i (r + 1)).saves
              = attemptPersist env cfg
                  { (execute_iteration env (set_task_iteration s i)).1 with
                      updated_at := env.now }
                ++ (react_loop env cfg
                      { (execute_iteration env (set_task_iteration s i)).1 with
                          updated_at := env.now }
                      (i + 1) r).saves := by
            simp [react_loop, hstep, hb]
          rw [hsv] at ha
          rcases List.mem_append.mp ha with h1 | h2
          · left
            rw [mem_attemptPersist h1]
            exact hst1
          · exact ih
              { (execute_iteration env (set_task_iteration s i)).1 with updated_at := env.now }
              (i + 1) hst1 a h2

/-- C10: every session a `ComplexMission` run hands to the session store has
status `Running` (intermediate saves) or `Completed` (the terminal save); a
`Failed` session is never saved, because both failure exits set `Failed`
only after the run's last save attempt and return without persisting again. -/
theorem saved_sessions_never_failed (env : Env) (cfg : ReActConfig)
    (goal ctx : Str) (refs : List Str) :
    ∀ a ∈ (execute_complex env cfg goal ctx refs).saves,
      a.saved.status = .Running ∨ a.saved.status = .Completed := by
  intro a ha
  simp only [execute_complex] at ha
  exact react_loop_saves_status env cfg cfg.max_iterations _ 0 rfl a ha

/-- Witness for C10: the one save attempted by the mock-path run with a bound
store carries a non-`Failed` (here `Completed`) session. -/
theorem saved_sessions_never_failed_witness :
    mockFinalSave.saved.status = .Running ∨ mockFinalSave.saved.status = .Completed :=
  saved_sessions_never_failed envMockStore ReActConfig.default
    ("Test goal".data) ("ctx".data) [] mockFinalSave (List.Mem.head _)

theorem react_loop_history_monotone (env : Env) (cfg : ReActConfig) :
    ∀ (r : Nat) (s : Session) (i : Nat),
      ∃ t, (react_loop env cfg s i r).session.history = s.history ++ t := by
  intro r
  induction r with
  | zero =>
    intro s i
    exact ⟨[], by simp [react_loop]⟩
  | succ r ih =>
    intro s i
    obtain ⟨t1, ht1⟩ := execute_iteration_history env (set_task_iteration s i)
    rw [set_task_iteration_history] at ht1
    cases hstep : (execute_iteration env (set_task_iteration s i)).2 with
    | error e =>
      exact ⟨t1, by simp [react_loop, hstep, ht1]⟩
    | ok o =>
      cases o with
      | some result =>
        exact ⟨t1, by simp [react_loop, hstep, ht1]⟩
      | none =>
        cases hb : (execute_iteration env (set_task_iteration s i)).1.token_usage.is_exceeded with
        | true =>
          exact ⟨t1, by simp [react_loop, hstep, hb, ht1]⟩
        | false =>
          obtain ⟨t2, ht2⟩ := ih
            { (execute_iteration env (set_task_iteration s i)).1 with updated_at := env.now }
            (i + 1)
          refine ⟨t1 ++ t2, ?_⟩
          have hsess : (react_loop env cfg s i (r + 1)).session
              = (react_loop env cfg
                  { (execute_iteration env (set_task_iteration s i)).1 with updated_at := env.now }
                  (i + 1) r).session := by
            simp [react_loop, hstep, hb]
          rw [hsess, ht2]
          simp [ht1]

theorem execute_iteration_order (env : Env) (s : Session)
    (chat : List ChatMessage → Except Error LlmResponse) (o : Option AgentResult)
    (hllm : env.llm = some chat)
    (hok : (execute_iteration env s).2 = .ok o) :
    ∃ content tail,
      (execute_iteration env s).1.history
        = s.history ++ (assistant_entry content env.now :: tail)
      ∧ tail.length ≤ 1
      ∧ (o = none → tail.length = 1)
      ∧ ∀ e ∈ tail, e.role = "user".data := by
  revert hok
  simp only [execute_iteration, execute_iteration_with_llm, hllm]
  cases hcv : compress_view env (build_messages s) with
  | error e => intro hok; simp at hok
  | ok msgs =>
    simp only []
    cases hr : chat msgs with
    | error e => intro hok; simp at hok
    | ok response =>
      intro hok
      obtain ⟨tail, htail, hlen, hnone, hrole⟩ := apply_action_history env
        (push_history (add_usage s response.usage) (assistant_entry response.content env.now))
        (parse_action env.parse_json response.content)
      refine ⟨response.content, tail, ?_, hlen, ?_, hrole⟩
      · rw [htail]
        simp [push_history, add_usage]
      · intro ho
        apply hnone
        simp only [Except.ok.injEq] at hok
        rw [hok, ho]

theorem execute_iteration_compressor_independent (env env2 : Env)
    (resp : LlmResponse) (s : Session)
    (hllm : env.llm = some fun _ => Except.ok resp)
    (hllm2 : env2.llm = some fun _ => Except.ok resp)
    (htools : env2.tools = env.tools)
    (hdeleg : env2.delegator = env.delegator)
    (hpj : env2.parse_json = env.parse_json)
    (hnow : env2.now = env.now)
    (h1 : ∃ o, (execute_iteration env s).2 = .ok o)
    (h2 : ∃ o, (execute_iteration env2 s).2 = .ok o) :
    execute_iteration env2 s = execute_iteration env s := by
  have hap : ∀ (s' : Session) (a : ReActAction),
      apply_action env2 s' a = apply_action env s' a := by
    intro s' a
    cases a <;>
      simp [apply_action, toolObservation, delegateObservation, htools, hdeleg, hnow]
  simp only [execute_iteration, execute_iteration_with_llm, hllm, hllm2]
  cases hcv1 : compress_view env (build_messages s) with
  | error e =>
    exfalso
    obtain ⟨o, ho⟩ := h1
    simp only [execute_iteration, execute_iteration_with_llm, hllm] at ho
    rw [hcv1] at ho
    simp at ho
  | ok m1 =>
    cases hcv2 : compress_view env2 (build_messages s) with
    | error e =>
      exfalso
      obtain ⟨o, ho⟩ := h2
      simp only [execute_iteration, execute_iteration_with_llm, hllm2] at ho
      rw [hcv2] at ho
      simp at ho
    | ok m2 =>
      simp [hcv1, hcv2, hap, hpj, hnow]

/-- C5: the session history is append-only during one run — after any number
of loop iterations the stored history is the initial history plus appended
entries, never rewritten — and within one reasoning-backed iteration the
entries land in operation order: first the assistant entry carrying the raw
reply, then at most one observation/nudge entry (exactly one when the step
continues), always user-role; and with the backend's reply fixed, swapping
the compressor (which only rewrites the transient message view) leaves the
whole post-iteration session, its stored history included, unchanged. -/
theorem history_append_only :
    (∀ (env : Env) (cfg : ReActConfig) (s : Session) (i r : Nat),
      ∃ t, (react_loop env cfg s i r).session.history = s.history ++ t)
    ∧ (∀ (env : Env) (s : Session) (chat : List ChatMessage → Except Error LlmResponse)
        (o : Option AgentResult), env.llm = some chat →
        (execute_iteration env s).2 = .ok o →
        ∃ content tail,
          (execute_iteration env s).1.history
            = s.history ++ (assistant_entry content env.now :: tail)
          ∧ tail.length ≤ 1
          ∧ (o = none → tail.length = 1)
          ∧ ∀ e ∈ tail, e.role = "user".data)
    ∧ (∀ (env : Env) (c2 : Option Compressor) (resp : LlmResponse) (s : Session),
        env.llm = (some fun _ => Except.ok resp) →
        (∃ o, (execute_iteration env s).2 = .ok o) →
        (∃ o, (execute_iteration { env with compressor := c2 } s).2 = .ok o) →
        execute_iteration { env with compressor := c2 } s = execute_iteration env s) :=
  ⟨fun env cfg s i r => react_loop_history_monotone env cfg r s i,
   fun env s chat o hllm hok => execute_iteration_order env s chat o hllm hok,
   fun env c2 resp s hllm h1 h2 =>
     execute_iteration_compressor_independent env { env with compressor := c2 } resp s
       hllm hllm rfl rfl rfl rfl h1 h2⟩

/-- C7 (amended): with no reasoning backend bound and at least one iteration
configured, `ComplexMission` terminates during the first iteration with
status `Completed` and a text result embedding the literal goal and the
configure-a-backend notice; apart from the session-store save attempt of the
completed session, no capability provider influences the run — rebinding the
tool backend, compressor and delegator arbitrarily changes nothing. -/
theorem mock_mission_fallback (env : Env) (cfg : ReActConfig)
    (goal ctx : Str) (refs : List Str)
    (hllm : env.llm = none) (hpos : 0 < cfg.max_iterations) :
    (∃ pre suf,
      (execute_complex env cfg goal ctx refs).result = .ok (.Text (pre ++ goal ++ suf)))
    ∧ (∃ pre, (execute_complex env cfg goal ctx refs).result
        = .ok (.Text (pre ++ (". Configure LLM client for real execution.".data))))
    ∧ (execute_complex env cfg goal ctx refs).events = [.terminal]
    ∧ (execute_complex env cfg goal ctx refs).session.status = .Completed
    ∧ (∀ tools2 comp2 dg2,
        execute_complex { env with tools := tools2, compressor := comp2, delegator := dg2 }
            cfg goal ctx refs
          = execute_complex env cfg goal ctx refs) := by
  obtain ⟨r, hr⟩ : ∃ r, cfg.max_iterations = r + 1 := ⟨cfg.max_iterations - 1, by omega⟩
  have hmaster : ∀ e2 : Env, e2.llm = none →
      execute_complex e2 cfg goal ctx refs
        = (let s0 := push_history (create_session e2 cfg goal)
              { role := "user".data, content := context_entry_content ctx refs,
                tool_call := none, timestamp := e2.now };
           let s1 := set_task_iteration s0 0;
           let s2 : Session := { s1 with updated_at := e2.now, status := .Completed };
           { result := .ok (.Text (mock_result_text s1)), session := s2,
             saves := attemptPersist e2 cfg s2, events := [.terminal] }) := by
    intro e2 h2
    have hm : ∀ s : Session,
        execute_iteration e2 s = (s, .ok (some (.Text (mock_result_text s)))) :=
      fun s => by simp [execute_iteration, h2]
    simp [execute_complex, hr, react_loop, hm]
  have hA := hmaster env hllm
  have htext : mock_result_text (set_task_iteration
      (push_history (create_session env cfg goal)
        { role := "user".data, content := context_entry_content ctx refs,
          tool_call := none, timestamp := env.now }) 0)
      = ("Mock ReAct execution. Goal: ".data) ++ goal
        ++ (". Configure LLM client for real execution.".data) := by
    simp [mock_result_text, set_task_iteration, push_history, create_session]
  refine ⟨⟨("Mock ReAct execution. Goal: ".data),
      (". Configure LLM client for real execution.".data), ?_⟩,
    ⟨("Mock ReAct execution. Goal: ".data) ++ goal, ?_⟩, ?_, ?_, ?_⟩
  · rw [hA]
    simp [htext]
  · rw [hA]
    simp [htext]
  · rw [hA]
  · rw [hA]
  · intro tools2 comp2 dg2
    have hB := hmaster { env with tools := tools2, compressor := comp2, delegator := dg2 } hllm
    rw [hA, hB]
    rfl

/-- Counterexample for C7 as stated: with a session store bound (and default
persistence on), the no-backend run does invoke a capability provider before
returning — it hands the completed session to the session store once. -/
theorem mock_mission_persists_counterexample :
    (execute_complex envMockStore ReActConfig.default ("Test goal".data) ("ctx".data) []).saves
      = [{ saved := (execute_complex envMockStore ReActConfig.default
                      ("Test goal".data) ("ctx".data) []).session
           outcome := .ok () }] := by rfl

/-- Witness for C7 (amended) on the bare controller with the default
configuration: terminal first iteration, `Completed`, text embedding the
goal and the configure-a-backend notice, providers irrelevant. -/
theorem mock_mission_fallback_witness :
    (∃ pre suf,
      (execute_complex envBare ReActConfig.default ("Test goal".data) ("ctx".data) []).result
        = .ok (.Text (pre ++ ("Test goal".data) ++ suf)))
    ∧ (∃ pre,
      (execute_complex envBare ReActConfig.default ("Test goal".data) ("ctx".data) []).result
        = .ok (.Text (pre ++ (". Configure LLM client for real execution.".data))))
    ∧ (execute_complex envBare ReActConfig.default ("Test goal".data) ("ctx".data) []).events
        = [.terminal]
    ∧ (execute_complex envBare ReActConfig.default ("Test goal".data) ("ctx".data) []).session.status
        = .Completed
    ∧ (∀ tools2 comp2 dg2,
        execute_complex { envBare with tools := tools2, compressor := comp2, delegator := dg2 }
            ReActConfig.default ("Test goal".data) ("ctx".data) []
          = execute_complex envBare ReActConfig.default ("Test goal".data) ("ctx".data) []) :=
  mock_mission_fallback envBare ReActConfig.default ("Test goal".data) ("ctx".data) []
    rfl (by decide)

/-- C8: when the decoded action is `Delegate`, every outcome — sub-task
success, sub-task failure, capability error, or no delegator bound — becomes
the corresponding formatted observation; the observation is appended both as
a user-role history entry (prefixed `DELEGATION RESULT: `) and to the
task-state observation list, no error is raised, and the step yields
"continue" (`none`). -/
theorem delegate_outcomes (env : Env) (s : Session) (objective context : Str)
    (ts : TaskState) (hts : s.task_state = some ts) :
    (apply_action env s (.Delegate objective context)).2 = none
    ∧ (apply_action env s (.Delegate objective context)).1.history
        = s.history
          ++ [{ role := "user".data
                content := ("DELEGATION RESULT: ".data) ++ delegateObservation env objective context
                tool_call := none
                timestamp := env.now }]
    ∧ (apply_action env s (.Delegate objective context)).1.task_state
        = some { ts with observations := ts.observations ++ [delegateObservation env objective context] }
    ∧ (env.delegator = none →
        delegateObservation env objective context
          = ("Delegation not available (no delegator configured). Objective: ".data) ++ objective)
    ∧ (∀ dg r, env.delegator = some dg →
        dg { objective := objective, context := context } = .ok r →
        delegateObservation env objective context
          = if r.success then ("Subagent completed successfully:\n".data) ++ r.result
            else ("Subagent failed: ".data) ++ (r.error.getD []))
    ∧ (∀ dg e, env.delegator = some dg →
        dg { objective := objective, context := context } = .error e →
        delegateObservation env objective context
          = ("Delegation error: ".data) ++ e.toMessage) := by
  refine ⟨rfl, ?_, ?_, ?_, ?_, ?_⟩
  · simp only [apply_action]
    rw [push_observation_history]
    simp [push_history]
  · simp [apply_action, push_observation, push_history, hts]
  · intro hdg
    simp [delegateObservation, hdg]
  · intro dg r hdg hr
    simp [delegateObservation, hdg, hr]
  · intro dg e hdg hr
    simp [delegateObservation, hdg, hr]

/-- Witness for C8: a bound always-succeeding delegator on a freshly created
session — continue step, one user-role `DELEGATION RESULT: ` entry, one new
observation. -/
theorem delegate_outcomes_witness :
    (apply_action envDelegate sDelegate (.Delegate ("sub-objective".data) ("sub-context".data))).2 = none
    ∧ (apply_action envDelegate sDelegate (.Delegate ("sub-objective".data) ("sub-context".data))).1.history
        = sDelegate.history
          ++ [{ role := "user".data
                content := ("DELEGATION RESULT: ".data)
                  ++ delegateObservation envDelegate ("sub-objective".data) ("sub-context".data)
                tool_call := none
                timestamp := envDelegate.now }]
    ∧ (apply_action envDelegate sDelegate (.Delegate ("sub-objective".data) ("sub-context".data))).1.task_state
        = some { tsGoal with
            observations := tsGoal.observations
              ++ [delegateObservation envDelegate ("sub-objective".data) ("sub-context".data)] }
    ∧ (envDelegate.delegator = none →
        delegateObservation envDelegate ("sub-objective".data) ("sub-context".data)
          = ("Delegation not available (no delegator configured). Objective: ".data)
            ++ ("sub-objective".data))
    ∧ (∀ dg r, envDelegate.delegator = some dg →
        dg { objective := ("sub-objective".data), context := ("sub-context".data) } = .ok r →
        delegateObservation envDelegate ("sub-objective".data) ("sub-context".data)
          = if r.success then ("Subagent completed successfully:\n".data) ++ r.result
            else ("Subagent failed: ".data) ++ (r.error.getD []))
    ∧ (∀ dg e, envDelegate.delegator = some dg →
        dg { objective := ("sub-objective".data), context := ("sub-context".data) } = .error e →
        delegateObservation envDelegate ("sub-objective".data) ("sub-context".data)
          = ("Delegation error: ".data) ++ e.toMessage) :=
  delegate_outcomes envDelegate sDelegate ("sub-objective".data) ("sub-context".data) tsGoal rfl

/-- Witness for C5: the think-forever controller's two-iteration run only
appends to the initial history; its single iteration appends the assistant
entry first and then exactly one user-role nudge entry; and swapping in a
concrete compressor leaves the iteration's outcome identical. -/
theorem history_append_only_witness :
    (∃ t, (react_loop envThink cfgTwo sThink 0 2).session.history = sThink.history ++ t)
    ∧ (∃ content tail,
        (execute_iteration envThink sThink).1.history
          = sThink.history ++ (assistant_entry content envThink.now :: tail)
        ∧ tail.length ≤ 1
        ∧ ((none : Option AgentResult) = none → tail.length = 1)
        ∧ ∀ e ∈ tail, e.role = "user".data)
    ∧ execute_iteration { envThink with compressor := some truncComp } sThink
        = execute_iteration envThink sThink :=
  ⟨history_append_only.1 envThink cfgTwo sThink 0 2,
   history_append_only.2.1 envThink sThink thinkLlm none rfl (by rfl),
   history_append_only.2.2 envThink (some truncComp) respThink sThink rfl
     ⟨none, by rfl⟩ ⟨none, by rfl⟩⟩

end MultiAgent
